import Mathlib

/-!
Verification development for the Deep Research Agent repository.

The repository source under version control contains the React front end
(frontend/src/App.js) and the README files.  The back-end crawl-and-pipeline
engine is not part of the checked-in sources, so those parts are modelled
from the specification text (each such definition says so in its doc
comment).  All front-end definitions below are shallow embeddings of the
corresponding JavaScript in App.js.
-/

/-- Descriptive metadata for one language model, as consumed by ModelCard
(App.js lines 7-35). -/
structure ModelInfo where
  name : String
  description : String
  cost_tier : String
  use_case : String
  context_window : Nat
deriving Repr, DecidableEq

/-- A progress snapshot as consumed by ProgressBar (App.js lines 38-64):
fields stage, message and percent. -/
structure Progress where
  stage : String
  message : String
  percent : Nat
deriving Repr, DecidableEq

/-- One entry of a job snapshot field pages_scraped, as rendered by
ReportViewer (App.js lines 174-181): url, title and depth are read. -/
structure PageScraped where
  url : String
  title : String
  depth : Nat
deriving Repr, DecidableEq

/-- One entry of a job snapshot field summaries, as rendered by ReportViewer
(App.js lines 187-195): url, title and summary are read. -/
structure PageSummaryFE where
  url : String
  title : String
  summary : String
deriving Repr, DecidableEq

/-- A job snapshot as returned by the status endpoint and consumed by
pollJobStatus and ReportViewer in App.js. -/
structure Job where
  status : String
  progress : Progress
  pages_scraped : List PageScraped
  summaries : List PageSummaryFE
  report : Option String
  error : String
deriving Repr, DecidableEq

/-- The React state hooks of the App component (App.js lines 205-214),
collected into one record.  maxPages and maxDepth are JavaScript numbers
holding integers, embedded as Int. -/
structure AppState where
  websiteUrl : String
  questions : List String
  selectedModel : String
  models : List (String × ModelInfo)
  maxPages : Int
  maxDepth : Int
  currentJob : Option Job
  isLoading : Bool
  error : Option String
  showSettings : Bool
deriving Repr, DecidableEq

/-- The initial App state (the useState initial values, App.js lines
205-214). -/
def appInit : AppState :=
  { websiteUrl := ""
    questions := [""]
    selectedModel := "claude-sonnet-4-20250514"
    models := []
    maxPages := 30
    maxDepth := 2
    currentJob := none
    isLoading := false
    error := none
    showSettings := false }

/-- The stageEmoji object literal of ProgressBar (App.js lines 39-47), as an
association list in source order. -/
def stageEmojiMap : List (String × String) :=
  [("initializing", "🚀"),
   ("scraping", "🕷️"),
   ("summarizing", "📝"),
   ("categorizing", "🗂️"),
   ("reporting", "📊"),
   ("complete", "✅"),
   ("error", "❌")]

/-- JavaScript property lookup stageEmoji[progress.stage]: some emoji when the
key is present, none (undefined) otherwise. -/
def stageEmoji (stage : String) : Option String :=
  (stageEmojiMap.find? (fun p => p.1 == stage)).map (fun p => p.2)

/-- The emoji actually rendered: stageEmoji[progress.stage] with the fallback
of App.js line 52. -/
def displayedEmoji (stage : String) : String :=
  (stageEmoji stage).getD "⏳"

/-- addQuestion of QuestionInput (App.js lines 68-70): append one blank
entry. -/
def addQuestion (qs : List String) : List String :=
  qs ++ [""]

/-- updateQuestion of QuestionInput (App.js lines 72-76): copy the list and
overwrite the entry at the given index. -/
def updateQuestion (qs : List String) (i : Nat) (v : String) : List String :=
  qs.set i v

/-- removeQuestion of QuestionInput (App.js lines 78-82): drop the entry at
the given index, but only when more than one entry exists.  The JavaScript
filter callback receives (element, index) and keeps indices different from
the removed one, embedded here through enum. -/
def removeQuestion (qs : List String) (i : Nat) : List String :=
  if 1 < qs.length then
    ((qs.enum.filter (fun p => p.1 != i)).map (fun p => p.2))
  else
    qs

/-- The disabled attribute of the remove button (App.js line 102). -/
def removeBtnDisabled (qs : List String) : Bool :=
  qs.length == 1

/-- The states a question list can reach through the QuestionInput handlers,
starting from the useState initial value, and the reset in resetForm. -/
inductive QReachable : List String → Prop
  | init : QReachable [""]
  | add {qs : List String} : QReachable qs → QReachable (addQuestion qs)
  | update {qs : List String} (i : Nat) (v : String) :
      QReachable qs → QReachable (updateQuestion qs i v)
  | remove {qs : List String} (i : Nat) :
      QReachable qs → QReachable (removeQuestion qs i)
  | reset {qs : List String} : QReachable qs → QReachable [""]

/-- The hard-coded fallback of App.js line 4. -/
def apiBaseDefault : String := "http://localhost:8001"

/-- The back-end base URL documented in the README environment-variable table
(default for REACT_APP_API_URL). -/
def readmeApiDefault : String := "http://localhost:8000"

/-- API_BASE of App.js line 4: process.env.REACT_APP_API_URL || fallback.
A JavaScript || falls through on the empty string as well as on an unset
variable. -/
def apiBase (env : Option String) : String :=
  match env with
  | none => apiBaseDefault
  | some s => if s = "" then apiBaseDefault else s

/-- The test of App.js line 231 deciding that a polled status is final. -/
def isTerminalStatusStr (s : String) : Bool :=
  s == "completed" || s == "failed" || s == "cancelled"

/-- One round of pollJobStatus (App.js lines 225-243) on a successfully
fetched job snapshot: store the snapshot, then either finish (clearing the
loading flag, and surfacing the recorded error when the job failed) or
schedule the next poll after 2000 milliseconds.  The second component is the
scheduled delay, none when polling stops. -/
def pollJobStatus (st : AppState) (job : Job) : AppState × Option Nat :=
  let st1 := { st with currentJob := some job }
  if job.status == "completed" || job.status == "failed" || job.status == "cancelled" then
    let st2 := { st1 with isLoading := false }
    let st3 := if job.status == "failed" then { st2 with error := some job.error } else st2
    (st3, none)
  else
    (st1, some 2000)

/-- The request body built by startResearch (App.js lines 263-273). -/
structure ResearchRequest where
  website_url : String
  questions : List String
  model : String
  max_pages : Int
  max_depth : Int
deriving Repr, DecidableEq

/-- The synchronous validation part of startResearch (App.js lines 246-273):
either an updated state with an error message and no request, or the updated
state together with the job-creation request that is sent. -/
def startResearch (st : AppState) : AppState × Option ResearchRequest :=
  if st.websiteUrl = "" then
    ({ st with error := some "Please enter a website URL" }, none)
  else
    let validQuestions := st.questions.filter (fun q => q.trim != "")
    if validQuestions.length = 0 then
      ({ st with error := some "Please enter at least one research question" }, none)
    else
      ({ st with error := none, isLoading := true, currentJob := none },
        some { website_url := st.websiteUrl
               questions := validQuestions
               model := st.selectedModel
               max_pages := st.maxPages
               max_depth := st.maxDepth })

/-- resetForm (App.js lines 287-292): exactly four state setters run. -/
def resetForm (st : AppState) : AppState :=
  { st with currentJob := none, error := none, websiteUrl := "", questions := [""] }

/-- The useState initial value of maxPages (App.js line 209). -/
def maxPagesInit : Int := 30

/-- The useState initial value of maxDepth (App.js line 210). -/
def maxDepthInit : Int := 2

/-- The min attribute of the Max Pages slider (App.js line 356). -/
def pagesSliderMin : Int := 10

/-- The max attribute of the Max Pages slider (App.js line 357). -/
def pagesSliderMax : Int := 100

/-- The min attribute of the Max Crawl Depth slider (App.js line 367). -/
def depthSliderMin : Int := 1

/-- The max attribute of the Max Crawl Depth slider (App.js line 368). -/
def depthSliderMax : Int := 5

/-- The values the maxPages state can hold: its initial value or any integer
the range input can produce. -/
def frontendPagesReachable (p : Int) : Prop :=
  p = maxPagesInit ∨ (pagesSliderMin ≤ p ∧ p ≤ pagesSliderMax)

/-- The values the maxDepth state can hold: its initial value or any integer
the range input can produce. -/
def frontendDepthReachable (d : Int) : Prop :=
  d = maxDepthInit ∨ (depthSliderMin ≤ d ∧ d ≤ depthSliderMax)

/-- Modelled from the spec: the create_job contract of section 6 accepts
max_pages as an integer in [1,100].  The back-end implementing create_job is
not among the checked-in sources. -/
def contractPagesOk (p : Int) : Prop := 1 ≤ p ∧ p ≤ 100

/-- Modelled from the spec: the create_job contract of section 6 accepts
max_depth as an integer in [0,5].  The back-end implementing create_job is
not among the checked-in sources. -/
def contractDepthOk (d : Int) : Prop := 0 ≤ d ∧ d ≤ 5

/-- Modelled from the spec: the pipeline states of section 4.4.  The Job
Orchestrator is not among the checked-in sources. -/
inductive Status where
  | pending
  | crawling
  | summarizing
  | categorizing
  | reporting
  | completed
  | failed
  | cancelled
deriving Repr, DecidableEq

/-- The terminal states named by section 4.4 of the spec. -/
def Status.isTerminal : Status → Bool
  | .completed => true
  | .failed => true
  | .cancelled => true
  | _ => false

/-- Modelled from the spec: the events driving the state machine of section
4.4 (successful stage completion, unrecoverable stage error, cancellation
request). -/
inductive JobEvent where
  | advance
  | fail
  | cancel
deriving Repr, DecidableEq

/-- Modelled from the spec: the transition function of section 4.4.  The
orchestrator advances strictly in pipeline order; failed and cancelled are
reachable from any non-terminal state; terminal states never change. -/
def statusStep : Status → JobEvent → Status
  | .pending, .advance => .crawling
  | .crawling, .advance => .summarizing
  | .summarizing, .advance => .categorizing
  | .categorizing, .advance => .reporting
  | .reporting, .advance => .completed
  | s, .advance => s
  | s, .fail => if s.isTerminal then s else .failed
  | s, .cancel => if s.isTerminal then s else .cancelled

/-- Modelled from the spec: the outcome of fetching one URL and running the
Link Extractor on it (sections 4.1 and 4.2): a title, the extracted text and
the outbound links.  Fetcher and Link Extractor are not among the checked-in
sources, so a crawl is parametrised by this map. -/
structure FetchSuccess where
  title : String
  text : String
  links : List String
deriving Repr, DecidableEq

/-- Modelled from the spec: a CrawledPage record (section 3). -/
structure CrawledPage where
  url : String
  title : String
  extracted_text : String
  depth : Nat
  outbound_links : List String
deriving Repr, DecidableEq

/-- Modelled from the spec: the breadth-first crawl loop of section 4.3.
The frontier is a FIFO queue of (url, depth) targets; a dequeued target is
skipped when the page budget is exhausted, its depth exceeds max_depth or it
was already visited; otherwise it is marked visited and fetched, the page is
appended on success, and its unvisited outbound links are enqueued at
depth + 1 when that still respects max_depth.  A fetch failure skips the
target without failing the crawl. -/
def crawlGo (fetch : String → Option FetchSuccess) (maxPages maxDepth : Nat) :
    List (String × Nat) → List String → List CrawledPage → List CrawledPage
  | [], _, acc => acc
  | (url, d) :: rest, visited, acc =>
    if _hb : maxPages ≤ acc.length then acc
    else if maxDepth < d ∨ visited.contains url = true then
      crawlGo fetch maxPages maxDepth rest visited acc
    else
      match fetch url with
      | none => crawlGo fetch maxPages maxDepth rest (url :: visited) acc
      | some r =>
        let fresh :=
          (r.links.filter (fun l => !((url :: visited).contains l))).map (fun l => (l, d + 1))
        let next := if d + 1 ≤ maxDepth then rest ++ fresh else rest
        crawlGo fetch maxPages maxDepth next (url :: visited)
          (acc ++ [⟨url, r.title, r.text, d, r.links⟩])
termination_by front _ acc => (maxPages - acc.length, front.length)
decreasing_by
  · apply Prod.Lex.right
    simp
  · apply Prod.Lex.right
    simp
  · apply Prod.Lex.left
    simp only [List.length_append, List.length_cons, List.length_nil]
    omega

/-- Modelled from the spec: the Crawler contract entry point of section 4.3,
seeding the frontier with the seed URL at depth 0. -/
def crawl (fetch : String → Option FetchSuccess) (seed : String)
    (maxPages maxDepth : Nat) : List CrawledPage :=
  crawlGo fetch maxPages maxDepth [(seed, 0)] [] []

/-- A two-page cyclic site used to instantiate universally quantified
theorems at a concrete input. -/
def demoFetch (u : String) : Option FetchSuccess :=
  if u = "https://a.example" then
    some { title := "A", text := "alpha", links := ["https://b.example"] }
  else if u = "https://b.example" then
    some { title := "B", text := "beta", links := ["https://a.example"] }
  else
    none

/-- A concrete job snapshot used to instantiate universally quantified
theorems. -/
def sampleJob (s : String) : Job :=
  { status := s
    progress := { stage := "scraping", message := "working", percent := 40 }
    pages_scraped := [{ url := "https://a.example", title := "A", depth := 0 }]
    summaries := [{ url := "https://a.example", title := "A", summary := "alpha" }]
    report := none
    error := "crawl produced no pages" }

/-! Helper lemmas shared by the claim theorems. -/

theorem contains_false_not_mem {l : List String} {a : String}
    (h : l.contains a = false) : a ∉ l := by
  intro hm
  simp [List.contains, List.elem_iff] at h
  exact h hm

theorem nodup_append_single {l : List String} {a : String}
    (h : l.Nodup) (ha : a ∉ l) : (l ++ [a]).Nodup := by
  simp [List.nodup_append, List.disjoint_singleton, h, ha]

/-- The crawl loop preserves its three invariants: the accumulated page list
never exceeds the page budget, every accumulated page respects the depth
bound, and the accumulated URLs stay pairwise distinct (every accumulated
URL being marked visited). -/
theorem crawlGo_inv (fetch : String → Option FetchSuccess) (maxPages maxDepth : Nat) :
    ∀ (front : List (String × Nat)) (visited : List String) (acc : List CrawledPage),
      acc.length ≤ maxPages →
      (∀ p ∈ acc, p.depth ≤ maxDepth) →
      (acc.map CrawledPage.url).Nodup →
      (∀ p ∈ acc, p.url ∈ visited) →
      (crawlGo fetch maxPages maxDepth front visited acc).length ≤ maxPages ∧
      (∀ p ∈ crawlGo fetch maxPages maxDepth front visited acc, p.depth ≤ maxDepth) ∧
      ((crawlGo fetch maxPages maxDepth front visited acc).map CrawledPage.url).Nodup := by
  intro front visited acc
  induction front, visited, acc using crawlGo.induct fetch maxPages maxDepth with
  | case1 visited acc =>
    intro hlen hdep hnod _
    simp only [crawlGo]
    exact ⟨hlen, hdep, hnod⟩
  | case2 url d rest visited acc h =>
    intro hlen hdep hnod _
    simp only [crawlGo, dif_pos h]
    exact ⟨hlen, hdep, hnod⟩
  | case3 url d rest visited acc h hskip ih =>
    intro hlen hdep hnod hvis
    simp only [crawlGo, dif_neg h, if_pos hskip]
    exact ih hlen hdep hnod hvis
  | case4 url d rest visited acc h hskip heq ih =>
    intro hlen hdep hnod hvis
    simp only [crawlGo, dif_neg h, if_neg hskip, heq]
    exact ih hlen hdep hnod (fun p hp => List.mem_cons_of_mem _ (hvis p hp))
  | case5 url d rest visited acc h hskip r heq fresh next ih =>
    intro hlen hdep hnod hvis
    simp only [crawlGo, dif_neg h, if_neg hskip, heq]
    push_neg at hskip
    obtain ⟨hd, hcon⟩ := hskip
    have hnotvis : url ∉ visited :=
      contains_false_not_mem (by simpa using hcon)
    apply ih
    · simp only [List.length_append, List.length_cons, List.length_nil]
      omega
    · intro p hp
      rcases List.mem_append.mp hp with hp | hp
      · exact hdep p hp
      · simp at hp
        subst hp
        simpa using hd
    · rw [List.map_append]
      apply nodup_append_single hnod
      intro hmem
      rcases List.mem_map.mp hmem with ⟨p, hp, hpu⟩
      simp at hpu
      exact hnotvis (hpu ▸ hvis p hp)
    · intro p hp
      rcases List.mem_append.mp hp with hp | hp
      · exact List.mem_cons_of_mem _ (hvis p hp)
      · simp at hp
        subst hp
        simp

/-- Filtering an enumeration for indices different from i keeps everything
when i lies below the start index. -/
theorem enumFrom_filter_ne_length_eq (l : List String) (i : Nat) :
    ∀ n, i < n →
      ((List.enumFrom n l).filter (fun p => p.1 != i)).length = l.length := by
  induction l with
  | nil => intro n _; rfl
  | cons a t ih =>
    intro n h
    have hne : ((n, a).1 != i) = true := by
      simp only [bne_iff_ne, ne_eq]
      omega
    rw [List.enumFrom_cons, List.filter_cons, if_pos hne, List.length_cons,
      ih (n + 1) (by omega), List.length_cons]

/-- Filtering an enumeration for indices different from i drops at most one
element. -/
theorem enumFrom_filter_ne_length_ge (l : List String) (i : Nat) :
    ∀ n, l.length - 1 ≤ ((List.enumFrom n l).filter (fun p => p.1 != i)).length := by
  induction l with
  | nil => intro n; simp
  | cons a t ih =>
    intro n
    by_cases h : n = i
    · have hkeep : ((n, a).1 != i) = false := by
        simp only [bne_eq_false_iff_eq]
        exact h
      rw [List.enumFrom_cons, List.filter_cons, if_neg (by simp [hkeep]),
        enumFrom_filter_ne_length_eq t i (n + 1) (by omega)]
      simp
    · have hkeep : ((n, a).1 != i) = true := by
        simp only [bne_iff_ne, ne_eq]
        exact h
      rw [List.enumFrom_cons, List.filter_cons, if_pos hkeep, List.length_cons]
      have := ih (n + 1)
      simp only [List.length_cons]
      omega

/-- removeQuestion never empties a non-empty list. -/
theorem removeQuestion_length_ge (qs : List String) (i : Nat)
    (h : 1 ≤ qs.length) : 1 ≤ (removeQuestion qs i).length := by
  unfold removeQuestion
  by_cases hlen : 1 < qs.length
  · rw [if_pos hlen, List.length_map]
    have hge := enumFrom_filter_ne_length_ge qs i 0
    have : List.enum qs = List.enumFrom 0 qs := rfl
    rw [this]
    omega
  · rw [if_neg hlen]
    exact h

/-! The claim theorems. -/

/-- Claim C1: startResearch sends no job-creation request and sets an error
message whenever the website URL is empty or every entered question is
whitespace-only, and a request is sent only when the URL is non-empty and at
least one question survives the whitespace filter. -/
theorem startResearch_validation (st : AppState) :
    ((st.websiteUrl = "" ∨ ∀ q ∈ st.questions, q.trim = "") →
       (startResearch st).2 = none ∧ (startResearch st).1.error.isSome = true) ∧
    (∀ r, (startResearch st).2 = some r →
       st.websiteUrl ≠ "" ∧ ∃ q ∈ st.questions, q.trim ≠ "") := by
  by_cases hurl : st.websiteUrl = ""
  · simp only [startResearch, if_pos hurl]
    constructor
    · intro _
      constructor <;> trivial
    · intro r hr
      cases hr
  · by_cases hq : (st.questions.filter (fun q => q.trim != "")).length = 0
    · simp only [startResearch, if_neg hurl, if_pos hq]
      constructor
      · intro _
        constructor <;> trivial
      · intro r hr
        cases hr
    · simp only [startResearch, if_neg hurl, if_neg hq]
      constructor
      · intro h
        rcases h with h | h
        · exact absurd h hurl
        · exfalso
          apply hq
          rw [List.length_eq_zero, List.filter_eq_nil_iff]
          intro a ha
          simp [h a ha]
      · intro r _
        refine ⟨hurl, ?_⟩
        have hne : st.questions.filter (fun q => q.trim != "") ≠ [] := by
          intro hnil
          exact hq (by rw [hnil]; rfl)
        have hpos : 0 < (st.questions.filter (fun q => q.trim != "")).length :=
          Nat.pos_of_ne_zero hq
        obtain ⟨a, ha⟩ := List.exists_mem_of_length_pos hpos
        obtain ⟨hmem, hpred⟩ := List.mem_filter.mp ha
        exact ⟨a, hmem, by simpa [bne_iff_ne] using hpred⟩

/-- Witness for claim C1 at the initial state, whose URL field is empty. -/
theorem startResearch_validation_witness :
    (appInit.websiteUrl = "" ∨ ∀ q ∈ appInit.questions, q.trim = "") ∧
    ((startResearch appInit).2 = none ∧ (startResearch appInit).1.error.isSome = true) :=
  ⟨Or.inl rfl, (startResearch_validation appInit).1 (Or.inl rfl)⟩

/-- Claim C2: every crawl returns at most max_pages pages, every returned
page has depth at most max_depth, and no URL appears twice in the returned
sequence. -/
theorem crawl_bounded_nodup (fetch : String → Option FetchSuccess) (seed : String)
    (maxPages maxDepth : Nat) :
    (crawl fetch seed maxPages maxDepth).length ≤ maxPages ∧
    (∀ p ∈ crawl fetch seed maxPages maxDepth, p.depth ≤ maxDepth) ∧
    ((crawl fetch seed maxPages maxDepth).map CrawledPage.url).Nodup :=
  crawlGo_inv fetch maxPages maxDepth [(seed, 0)] [] []
    (by simp) (by simp) (by simp) (by simp)

/-- Witness for claim C2 on a concrete two-page cyclic site. -/
theorem crawl_bounded_nodup_witness :
    (crawl demoFetch "https://a.example" 5 2).length ≤ 5 ∧
    ((crawl demoFetch "https://a.example" 5 2).map CrawledPage.url).Nodup :=
  ⟨(crawl_bounded_nodup demoFetch "https://a.example" 5 2).1,
   (crawl_bounded_nodup demoFetch "https://a.example" 5 2).2.2⟩

/-- Claim C3: a terminal status (completed, failed, cancelled) never changes
under any further orchestrator event, and a polling client that observes a
terminal status schedules no further poll. -/
theorem terminal_status_frozen :
    (∀ (s : Status) (e : JobEvent), s.isTerminal = true → statusStep s e = s) ∧
    (∀ (st : AppState) (job : Job), isTerminalStatusStr job.status = true →
       (pollJobStatus st job).2 = none) := by
  constructor
  · intro s e
    cases s <;> cases e <;> decide
  · intro st job h
    unfold isTerminalStatusStr at h
    simp [pollJobStatus, h]

/-- Witness for claim C3: the completed status is frozen and stops the
poll loop. -/
theorem terminal_status_frozen_witness :
    (Status.completed.isTerminal = true ∧
      statusStep Status.completed JobEvent.advance = Status.completed) ∧
    (isTerminalStatusStr (sampleJob "cancelled").status = true ∧
      (pollJobStatus appInit (sampleJob "cancelled")).2 = none) :=
  ⟨⟨rfl, terminal_status_frozen.1 Status.completed JobEvent.advance rfl⟩,
   ⟨by decide, terminal_status_frozen.2 appInit (sampleJob "cancelled") (by decide)⟩⟩

/-- Claim C4: pollJobStatus schedules another poll after 2000 milliseconds
exactly when the snapshot status is none of completed, failed and cancelled;
on any of those the loading flag is cleared and no poll is scheduled. -/
theorem poll_reschedule_iff_nonterminal (st : AppState) (job : Job) :
    ((pollJobStatus st job).2 = some 2000 ↔ isTerminalStatusStr job.status = false) ∧
    (isTerminalStatusStr job.status = true →
       (pollJobStatus st job).1.isLoading = false ∧ (pollJobStatus st job).2 = none) := by
  by_cases h : isTerminalStatusStr job.status = true
  · have hcase : job.status = "completed" ∨ job.status = "failed" ∨ job.status = "cancelled" := by
      simpa [isTerminalStatusStr, or_assoc] using h
    constructor
    · rcases hcase with hc | hc | hc <;> simp [pollJobStatus, isTerminalStatusStr, hc]
    · intro _
      rcases hcase with hc | hc | hc <;> constructor <;> simp [pollJobStatus, hc]
  · rw [Bool.not_eq_true] at h
    have hcase : ¬job.status = "completed" ∧ ¬job.status = "failed" ∧ ¬job.status = "cancelled" := by
      simpa [isTerminalStatusStr, and_assoc] using h
    obtain ⟨h1, h2, h3⟩ := hcase
    constructor
    · simp [pollJobStatus, isTerminalStatusStr, h1, h2, h3]
    · intro ht
      rw [h] at ht
      cases ht

/-- Witness for claim C4 at a terminal and a non-terminal snapshot. -/
theorem poll_reschedule_iff_nonterminal_witness :
    (pollJobStatus appInit (sampleJob "summarizing")).2 = some 2000 ∧
    ((pollJobStatus appInit (sampleJob "completed")).1.isLoading = false ∧
      (pollJobStatus appInit (sampleJob "completed")).2 = none) :=
  ⟨(poll_reschedule_iff_nonterminal appInit (sampleJob "summarizing")).1.mpr (by decide),
   (poll_reschedule_iff_nonterminal appInit (sampleJob "completed")).2 (by decide)⟩

/-- Claim C5 counterexample: the stage-to-emoji mapping of ProgressBar is
undefined at the spec stage names pending, crawling and completed, so it is
not defined for every pipeline state named by the spec. -/
theorem stageEmoji_missing_spec_stages :
    ¬ (∀ s ∈ ["pending", "crawling", "summarizing", "categorizing",
              "reporting", "completed"],
        (stageEmoji s).isSome = true) := by
  intro h
  have := h "pending" (by simp)
  simp [stageEmoji, stageEmojiMap] at this

/-- Claim C5 amended: among the spec stage names the mapping is defined
exactly for summarizing, categorizing and reporting; pending, crawling and
completed are not keys (the code uses initializing, scraping and complete
instead, plus error) and are rendered with the hourglass fallback. -/
theorem stageEmoji_spec_stage_coverage :
    (stageEmoji "summarizing").isSome = true ∧
    (stageEmoji "categorizing").isSome = true ∧
    (stageEmoji "reporting").isSome = true ∧
    stageEmoji "pending" = none ∧
    stageEmoji "crawling" = none ∧
    stageEmoji "completed" = none ∧
    displayedEmoji "pending" = "⏳" ∧
    displayedEmoji "crawling" = "⏳" ∧
    displayedEmoji "completed" = "⏳" ∧
    (stageEmoji "initializing").isSome = true ∧
    (stageEmoji "scraping").isSome = true ∧
    (stageEmoji "complete").isSome = true ∧
    (stageEmoji "error").isSome = true := by
  decide

/-- Claim C6: every maxPages and maxDepth value the front end can hold
(the defaults 30 and 2, or a slider value in [10,100] and [1,5]) lies inside
the ranges the create_job contract accepts, and the contract itself also
accepts a seed-only crawl with max_depth 0. -/
theorem frontend_params_within_contract (p d : Int)
    (hp : frontendPagesReachable p) (hd : frontendDepthReachable d) :
    contractPagesOk p ∧ contractDepthOk d ∧ contractDepthOk 0 := by
  unfold frontendPagesReachable maxPagesInit pagesSliderMin pagesSliderMax at hp
  unfold frontendDepthReachable maxDepthInit depthSliderMin depthSliderMax at hd
  unfold contractPagesOk contractDepthOk
  rcases hp with hp | hp <;> rcases hd with hd | hd <;>
    refine ⟨⟨?_, ?_⟩, ⟨?_, ?_⟩, ?_, ?_⟩ <;> omega

/-- Witness for claim C6 at the default values. -/
theorem frontend_params_within_contract_witness :
    frontendPagesReachable 30 ∧ frontendDepthReachable 2 ∧
    (contractPagesOk 30 ∧ contractDepthOk 2 ∧ contractDepthOk 0) :=
  ⟨Or.inl rfl, Or.inl rfl,
   frontend_params_within_contract 30 2 (Or.inl rfl) (Or.inl rfl)⟩

/-- Claim C7: on a failed snapshot the client records exactly the job error
field as the displayed error message, and the snapshot with its partial
pages_scraped and summaries is kept in state rather than discarded. -/
theorem failed_poll_shows_error_keeps_partials (st : AppState) (job : Job)
    (h : job.status = "failed") :
    (pollJobStatus st job).1.error = some job.error ∧
    ∃ j, (pollJobStatus st job).1.currentJob = some j ∧
      j.pages_scraped = job.pages_scraped ∧ j.summaries = job.summaries := by
  refine ⟨?_, job, ?_, rfl, rfl⟩ <;> simp [pollJobStatus, h]

/-- Witness for claim C7 on a concrete failed snapshot carrying one scraped
page and one summary. -/
theorem failed_poll_shows_error_keeps_partials_witness :
    (sampleJob "failed").status = "failed" ∧
    ((pollJobStatus appInit (sampleJob "failed")).1.error
        = some (sampleJob "failed").error ∧
      ∃ j, (pollJobStatus appInit (sampleJob "failed")).1.currentJob = some j ∧
        j.pages_scraped = (sampleJob "failed").pages_scraped ∧
        j.summaries = (sampleJob "failed").summaries) :=
  ⟨rfl, failed_poll_shows_error_keeps_partials appInit (sampleJob "failed") rfl⟩

/-- Claim C8: every reachable question list is non-empty; addQuestion grows
the list by one, updateQuestion preserves its length, removeQuestion is the
identity on a one-element list, and the remove button is disabled exactly
then. -/
theorem questions_list_never_empty :
    (∀ qs, QReachable qs → 1 ≤ qs.length) ∧
    (∀ qs, (addQuestion qs).length = qs.length + 1) ∧
    (∀ qs i v, (updateQuestion qs i v).length = qs.length) ∧
    (∀ qs i, qs.length = 1 → removeQuestion qs i = qs) ∧
    (∀ qs, removeBtnDisabled qs = (qs.length == 1)) := by
  refine ⟨?_, ?_, ?_, ?_, ?_⟩
  · intro qs h
    induction h with
    | init => simp
    | add _ ih => simp [addQuestion]
    | update i v _ ih => simpa [updateQuestion] using ih
    | remove i _ ih => exact removeQuestion_length_ge _ _ ih
    | reset _ => simp
  · intro qs
    simp [addQuestion]
  · intro qs i v
    simp [updateQuestion]
  · intro qs i h
    simp [removeQuestion, h]
  · intro qs
    rfl

/-- Witness for claim C8 after one add: the two-element list is reachable
and non-empty. -/
theorem questions_list_never_empty_witness :
    QReachable ["", ""] ∧ 1 ≤ (["", ""] : List String).length :=
  ⟨QReachable.add QReachable.init,
   questions_list_never_empty.1 ["", ""] (QReachable.add QReachable.init)⟩

/-- Claim C9: with REACT_APP_API_URL unset the front end falls back to
http://localhost:8001, which differs from the default documented in the
README environment-variable table. -/
theorem api_base_default_mismatch :
    apiBase none = apiBaseDefault ∧
    apiBase none = "http://localhost:8001" ∧
    apiBase none ≠ readmeApiDefault := by
  refine ⟨rfl, rfl, ?_⟩
  decide

/-- Claim C10: resetForm clears exactly the current job, the error message,
the website URL and the question list, and leaves every other state hook
unchanged. -/
theorem resetForm_frame (st : AppState) :
    (resetForm st).currentJob = none ∧
    (resetForm st).error = none ∧
    (resetForm st).websiteUrl = "" ∧
    (resetForm st).questions = [""] ∧
    (resetForm st).selectedModel = st.selectedModel ∧
    (resetForm st).models = st.models ∧
    (resetForm st).maxPages = st.maxPages ∧
    (resetForm st).maxDepth = st.maxDepth ∧
    (resetForm st).isLoading = st.isLoading ∧
    (resetForm st).showSettings = st.showSettings :=
  ⟨rfl, rfl, rfl, rfl, rfl, rfl, rfl, rfl, rfl, rfl⟩
